import Mathlib

/-!
Verification of the bittensor extrinsic-orchestration and chain-data-decoding
layer against its specification.

The Python sources embedded here:
  * src/bittensor/api/extrinsics/unstaking.py
      (check_threshold_amount, unstake_extrinsic, unstake_multiple_extrinsic)
  * src/bittensor/utils/deprecated/extrinsics/transfer.py (transfer_extrinsic)
  * src/bittensor/core/chain_data/neuron_info.py
      (NeuronInfo.fix_decoded_values, NeuronInfo.from_vec_u8,
       NeuronInfo.get_null_neuron)

Chain interactions (subtensor queries, extrinsic submissions, the rate-limit
sleep) are modelled as an environment record of oracle answers plus an event
trace produced by the orchestrator.  A `submit` event is an invocation of the
chain client's unstake/transfer operation; its outcome (success, failure,
NotRegisteredError, StakeError) is part of the environment.
-/

/-- Modelled from the spec: the `Balance` value type lives in
`bittensor/utils/balance.py`, which is not part of the supplied sources.
Per spec section 4.1 it wraps an integer `rao` amount (smallest unit) and all
arithmetic and comparison operate on that integer. -/
structure Balance where
  rao : Int
deriving DecidableEq, Repr

/-- Modelled from the spec: `Balance.from_raw` wraps an integer rao amount. -/
def Balance.from_rao (r : Int) : Balance := ⟨r⟩

/-- Modelled from the spec: Balance addition operates on `rao`. -/
def Balance.add (a b : Balance) : Balance := ⟨a.rao + b.rao⟩

/-- Modelled from the spec: Balance subtraction operates on `rao`. -/
def Balance.sub (a b : Balance) : Balance := ⟨a.rao - b.rao⟩

/-- Modelled from the spec: Balance strict comparison operates on `rao`.
`a.bgt b` is the Python `a > b`. -/
def Balance.bgt (a b : Balance) : Bool := b.rao < a.rao

/-- Outcome of the chain client's `_do_unstake` call
(`__do_remove_stake_single` forwards it): the call may return `True` or
`False`, or raise `NotRegisteredError` or `StakeError`. -/
inductive SubmitOutcome where
  | success : SubmitOutcome
  | failure : SubmitOutcome
  | notRegistered : SubmitOutcome
  | stakeError : SubmitOutcome
deriving DecidableEq, Repr

def SubmitOutcome.isSuccess : SubmitOutcome → Bool
  | SubmitOutcome.success => true
  | _ => false

/-- Oracle answers the single-target `unstake_extrinsic` reads from its
environment: the chain state queried in the sync block, the user's answer to
the confirmation prompt, and the outcome of the submission. -/
structure UnstakeEnv where
  /-- `subtensor.get_stake_for_coldkey_and_hotkey(...)` for the pair. -/
  oldStake : Balance
  /-- `wallet.coldkeypub.ss58_address == subtensor.get_hotkey_owner(...)`. -/
  ownHotkey : Bool
  /-- `subtensor.get_minimum_required_stake()`. -/
  minReqStake : Balance
  /-- Result of `Confirm.ask(...)` when the prompt is shown. -/
  promptAnswer : Bool
  /-- Outcome of `subtensor._do_unstake(...)`. -/
  submitOutcome : SubmitOutcome
deriving DecidableEq, Repr

/-- `check_threshold_amount` from unstaking.py: returns `False` exactly when
`min_req_stake > stake_balance > 0` (Python chained comparison), i.e. when the
remaining stake would be a non-zero amount below the chain minimum.  The
source queries `min_req_stake` from the subtensor; here it is a parameter. -/
def check_threshold_amount (min_req_stake stake_balance : Balance) : Bool :=
  if min_req_stake.bgt stake_balance && stake_balance.bgt (Balance.from_rao 0) then
    false
  else
    true

/-- `unstake_extrinsic` from unstaking.py.  Returns the boolean result and the
list of amounts passed to `__do_remove_stake_single` (each list entry is one
invocation of the chain client's unstake operation).  A `none` amount is the
Python `amount=None` (unstake everything); a float amount in Python is
converted with `Balance.from_tao` before any of the logic below, so amounts
are taken as Balances here. -/
def unstake_extrinsic (env : UnstakeEnv) (amount : Option Balance)
    (wait_for_inclusion wait_for_finalization prompt : Bool) :
    Bool × List Balance :=
  let unstaking_balance := amount.getD env.oldStake
  let stake_on_uid := env.oldStake
  -- Check enough to unstake.
  if unstaking_balance.bgt stake_on_uid then
    (false, [])
  else
    -- If nomination stake, check threshold.
    let unstaking_balance :=
      if !env.ownHotkey &&
          !(check_threshold_amount env.minReqStake
              (stake_on_uid.sub unstaking_balance)) then
        stake_on_uid
      else
        unstaking_balance
    -- Ask before moving on.
    if prompt && !env.promptAnswer then
      (false, [])
    else
      -- Submit; the return value on success is True whether or not the
      -- caller waited (the wait branch only re-queries and prints).
      match env.submitOutcome with
      | SubmitOutcome.success => (true, [unstaking_balance])
      | SubmitOutcome.failure => (false, [unstaking_balance])
      | SubmitOutcome.notRegistered => (false, [unstaking_balance])
      | SubmitOutcome.stakeError => (false, [unstaking_balance])

/-- Oracle answers `transfer_extrinsic` reads from its environment. -/
structure TransferEnv where
  /-- `is_valid_bittensor_address_or_public_key(dest)`. -/
  destValid : Bool
  /-- `subtensor.get_balance(wallet.coldkey.ss58_address)`. -/
  accountBalance : Balance
  /-- `subtensor.get_existential_deposit()`. -/
  existentialDeposit : Balance
  /-- `subtensor.get_transfer_fee(...)`. -/
  fee : Balance
  /-- Result of `Confirm.ask(...)` when the prompt is shown. -/
  promptAnswer : Bool
  /-- Success flag returned by `subtensor.do_transfer(...)`. -/
  transferSuccess : Bool
deriving DecidableEq, Repr

/-- `transfer_extrinsic` from transfer.py.  Returns the boolean result and the
list of amounts passed to `subtensor.do_transfer` (each entry is one
submission).  A float amount in Python is converted with `Balance.from_tao`
before the logic below. -/
def transfer_extrinsic (env : TransferEnv) (amount : Balance)
    (wait_for_inclusion wait_for_finalization keep_alive prompt : Bool) :
    Bool × List Balance :=
  -- Validate destination address.
  if !env.destValid then
    (false, [])
  else
    let transfer_balance := amount
    -- Check if the transfer should keep_alive the account.
    let existential_deposit :=
      if !keep_alive then Balance.from_rao 0 else env.existentialDeposit
    -- Check if we have enough balance.
    if env.accountBalance.rao <
        ((transfer_balance.add env.fee).add existential_deposit).rao then
      (false, [])
    else
      -- Ask before moving on.
      if prompt && !env.promptAnswer then
        (false, [])
      else
        (env.transferSuccess, [transfer_balance])

/-- Per-target oracle answers for `unstake_multiple_extrinsic`: the chain
state fetched for one hotkey in the sync block, the user's answer to that
target's confirmation prompt, and the outcome of that target's submission. -/
structure TargetEnv where
  /-- `subtensor.get_stake_for_coldkey_and_hotkey(...)` for this hotkey. -/
  oldStake : Balance
  /-- `wallet.coldkeypub.ss58_address == subtensor.get_hotkey_owner(...)`. -/
  ownHotkey : Bool
  /-- Result of `Confirm.ask(...)` for this target. -/
  promptAnswer : Bool
  /-- Outcome of `subtensor._do_unstake(...)` for this target. -/
  submitOutcome : SubmitOutcome
deriving DecidableEq, Repr

/-- Environment of `unstake_multiple_extrinsic`: one `TargetEnv` per hotkey in
input order, plus the global oracle answers. -/
structure MultiEnv where
  targets : List TargetEnv
  /-- `subtensor.get_minimum_required_stake()`. -/
  minReqStake : Balance
  /-- `subtensor.tx_rate_limit()`, in blocks. -/
  txRateLimit : Nat
deriving DecidableEq, Repr

/-- Chain-interaction events of the multi-target flow, in program order.
`submit i a` is the invocation of the chain client's unstake operation for
the target at index `i` with amount `a`; `sleepSec s` is a `sleep(s)` call
with `s` in seconds; the `query...` events are the read-only chain calls. -/
inductive MEvent where
  | queryBalance : MEvent
  | queryStake : Nat → MEvent
  | queryOwner : Nat → MEvent
  | queryMinStake : MEvent
  | queryTxRateLimit : MEvent
  | queryBlock : MEvent
  | sleepSec : Nat → MEvent
  | submit : Nat → Balance → MEvent
deriving DecidableEq, Repr

/-- The effective unstaking balance for one target after the nomination
threshold rule: the requested amount (`none` means the full current stake),
upgraded to the full current stake when the hotkey is not owned by the caller
and the remainder would be a non-zero amount below the minimum. -/
def effectiveUnstake (minReq : Balance) (t : TargetEnv) (amt : Option Balance) :
    Balance :=
  let unstaking_balance := amt.getD t.oldStake
  if !t.ownHotkey &&
      !(check_threshold_amount minReq (t.oldStake.sub unstaking_balance)) then
    t.oldStake
  else
    unstaking_balance

/-- The amount the target at hand submits to the chain, if its per-target
validation (enough stake, confirmation prompt) lets it reach submission. -/
def targetSubmit (minReq : Balance) (t : TargetEnv) (amt : Option Balance)
    (prompt : Bool) : Option Balance :=
  let unstaking_balance := amt.getD t.oldStake
  if unstaking_balance.bgt t.oldStake then
    none
  else if prompt && !t.promptAnswer then
    none
  else
    some (effectiveUnstake minReq t amt)

/-- Whether the target at hand counts into `successful_unstakes`: it reaches
submission and the submission returns `True`. -/
def targetSucceeds (minReq : Balance) (t : TargetEnv) (amt : Option Balance)
    (prompt : Bool) : Bool :=
  (targetSubmit minReq t amt prompt).isSome && t.submitOutcome.isSuccess

/-- One iteration of the per-target loop of `unstake_multiple_extrinsic`
(lines 331-439 of unstaking.py): returns whether this target incremented
`successful_unstakes`, and the events it produced.  `n` is the length of the
hotkey list and `idx` this target's position. -/
def unstakeTarget (minReq : Balance) (txRateLimit : Nat) (n idx : Nat)
    (t : TargetEnv) (amt : Option Balance)
    (wait_for_inclusion wait_for_finalization prompt : Bool) :
    Bool × List MEvent :=
  let unstaking_balance := amt.getD t.oldStake
  -- Check enough to unstake.
  if unstaking_balance.bgt t.oldStake then
    (false, [])
  else
    -- If nomination stake, check threshold (the minimum-stake query runs
    -- only when the hotkey is not owned, by short-circuit evaluation).
    let thresholdEvents :=
      if !t.ownHotkey then [MEvent.queryMinStake] else []
    let unstaking_balance := effectiveUnstake minReq t amt
    -- Ask before moving on.
    if prompt && !t.promptAnswer then
      (false, thresholdEvents)
    else
      match t.submitOutcome with
      | SubmitOutcome.success =>
          -- Wait for tx rate limit (only between successive targets).
          let rateEvents :=
            if idx < n - 1 then
              MEvent.queryTxRateLimit ::
                (if txRateLimit > 0 then
                  [MEvent.sleepSec (txRateLimit * 12)]
                else [])
            else []
          -- Re-query stake when the caller waited for inclusion/finalization.
          let waitEvents :=
            if !wait_for_finalization && !wait_for_inclusion then []
            else [MEvent.queryBlock, MEvent.queryStake idx]
          (true,
            thresholdEvents ++ MEvent.submit idx unstaking_balance ::
              (rateEvents ++ waitEvents))
      | SubmitOutcome.failure =>
          (false, thresholdEvents ++ [MEvent.submit idx unstaking_balance])
      | SubmitOutcome.notRegistered =>
          (false, thresholdEvents ++ [MEvent.submit idx unstaking_balance])
      | SubmitOutcome.stakeError =>
          (false, thresholdEvents ++ [MEvent.submit idx unstaking_balance])

/-- The per-target loop: folds `unstakeTarget` over the zipped targets and
amounts, starting at index `idx`, returning the value of
`successful_unstakes` and the concatenated events. -/
def runTargets (minReq : Balance) (txRateLimit : Nat) (n : Nat)
    (wait_for_inclusion wait_for_finalization prompt : Bool) :
    Nat → List (TargetEnv × Option Balance) → Nat × List MEvent
  | _, [] => (0, [])
  | idx, pa :: rest =>
    let r := unstakeTarget minReq txRateLimit n idx pa.1 pa.2
        wait_for_inclusion wait_for_finalization prompt
    let rr := runTargets minReq txRateLimit n
        wait_for_inclusion wait_for_finalization prompt (idx + 1) rest
    ((if r.1 then 1 else 0) + rr.1, r.2 ++ rr.2)

/-- The chain queries of the sync block (lines 314-328 of unstaking.py): one
balance query, then a stake query and an owner query per hotkey. -/
def syncEvents (n : Nat) : List MEvent :=
  MEvent.queryBalance ::
    ((List.range n).map (fun i => [MEvent.queryStake i, MEvent.queryOwner i])).flatten

/-- Result of `unstake_multiple_extrinsic`: the returned boolean and the
event trace. -/
structure MultiResult where
  success : Bool
  events : List MEvent
deriving DecidableEq, Repr

/-- The per-target amounts after normalization: an explicit list is mapped
elementwise (floats already converted to Balances); when the caller passes no
amounts the Python code builds `[None] * len(hotkey_ss58s)`. -/
def amountOptions (amounts : Option (List Balance)) (n : Nat) :
    List (Option Balance) :=
  match amounts with
  | some amts => amts.map some
  | none => List.replicate n none

/-- The body of `unstake_multiple_extrinsic` once the early returns are
passed: sync queries, the per-target loop, and the final balance re-query
(performed exactly when `successful_unstakes != 0`, which is also the
returned boolean). -/
def runMulti (env : MultiEnv) (amountOpts : List (Option Balance))
    (wait_for_inclusion wait_for_finalization prompt : Bool) : MultiResult :=
  let n := env.targets.length
  let loop := runTargets env.minReqStake env.txRateLimit n
      wait_for_inclusion wait_for_finalization prompt 0
      (env.targets.zip amountOpts)
  let finalEvents := if loop.1 ≠ 0 then [MEvent.queryBalance] else []
  ⟨loop.1 ≠ 0, syncEvents n ++ loop.2 ++ finalEvents⟩

/-- `unstake_multiple_extrinsic` from unstaking.py.  `none` as the overall
result models the `ValueError` raised on an amounts list whose length differs
from the hotkey list (the `TypeError` guards are enforced by typing here).
The zero-sum early return compares the exact sum of the amounts' rao values
with zero; Python sums the float `tao` views, which agrees on the
non-negative amounts the claims concern. -/
def unstake_multiple_extrinsic (env : MultiEnv)
    (amounts : Option (List Balance))
    (wait_for_inclusion wait_for_finalization prompt : Bool) :
    Option MultiResult :=
  let n := env.targets.length
  if n = 0 then
    some ⟨true, []⟩
  else
    match amounts with
    | some amts =>
        if amts.length ≠ n then
          none
        else if (amts.map Balance.rao).sum = 0 then
          -- Unstaking 0 tao.
          some ⟨true, []⟩
        else
          some (runMulti env (amountOptions (some amts) n)
            wait_for_inclusion wait_for_finalization prompt)
    | none =>
        some (runMulti env (amountOptions none n)
          wait_for_inclusion wait_for_finalization prompt)

/-- Python dict insertion for association lists: updating an existing key
keeps its position, a new key is appended. -/
def dictInsert (d : List (String × Balance)) (k : String) (v : Balance) :
    List (String × Balance) :=
  if d.any (fun p => p.1 == k) then
    d.map (fun p => if p.1 == k then (k, v) else p)
  else
    d ++ [(k, v)]

/-- Builds a Python dict from a list of key-value pairs, later keys winning
(the semantics of a dict comprehension or of repeated `update`). -/
def dictOfPairs (l : List (String × Balance)) : List (String × Balance) :=
  l.foldl (fun d p => dictInsert d p.1 p.2) []

/-- Python `sum` over a collection of Balances: the sum of the rao values
(`sum` starts from the int `0` and Balance addition is rao addition; on an
empty collection Python returns the int `0`, which Python equality identifies
with a zero Balance). -/
def sumBalances (l : List Balance) : Balance :=
  ⟨(l.map Balance.rao).sum⟩

/-- Modelled from the spec: `process_stake_data` lives in
`bittensor/core/chain_data/utils.py`, which is not part of the supplied
sources.  Per spec section 4.2 it turns a stake list of
(address_bytes, raw_amount) pairs into a mapping address -> Balance, the
addresses decoded by the chain's account-id encoding (abstracted here as the
function `enc`). -/
def process_stake_data (enc : List Nat → String)
    (stake : List (List Nat × Nat)) : List (String × Balance) :=
  dictOfPairs (stake.map (fun p => (enc p.1, Balance.from_rao (Int.ofNat p.2))))

/-- Modelled from the spec: `u16_normalized_float` lives in
`bittensor/utils/__init__.py`, which is not part of the supplied sources.
Per spec section 4.2 it divides a 16-bit unsigned field by the maximum
16-bit value 65535; the float result is modelled as a rational. -/
def u16_normalized_float (x : Nat) : Rat :=
  (x : Rat) / 65535

/-- `RAOPERTAO`: rao per tao, 10^9 (a float in the source, modelled as a
rational). -/
def RAOPERTAO : Rat := 1000000000

/-- The decoded neuron payload as it arrives at `fix_decoded_values` (a dict
produced by the low-level decode) or as `bt_decode.NeuronInfo.decode` returns
it inside `from_vec_u8`: raw account-id bytes, raw integer fields.  The
`axon_info` and `prometheus_info` payloads are carried by external component
types (`AxonInfo`, `PrometheusInfo`, files not part of the supplied sources)
and no claim concerns them, so they are left out of the model. -/
structure NeuronInfoDecoded where
  hotkey : List Nat
  coldkey : List Nat
  uid : Nat
  netuid : Nat
  active : Nat
  stake : List (List Nat × Nat)
  weights : List (Nat × Nat)
  bonds : List (Nat × Nat)
  rank : Nat
  emission : Nat
  incentive : Nat
  consensus : Nat
  trust : Nat
  validator_trust : Nat
  dividends : Nat
  last_update : Nat
  validator_permit : Bool
  pruning_score : Nat
deriving DecidableEq, Repr

/-- `NeuronInfo` dataclass from neuron_info.py.  Addresses are the encoded
human-readable strings; normalized float fields are modelled as rationals;
the dict `stake_dict` is an association list in insertion order.  The
external `axon_info`/`prometheus_info` fields are left out (see
`NeuronInfoDecoded`). -/
structure NeuronInfo where
  hotkey : String
  coldkey : String
  uid : Nat
  netuid : Nat
  active : Nat
  stake : Balance
  stake_dict : List (String × Balance)
  total_stake : Balance
  rank : Rat
  emission : Rat
  incentive : Rat
  consensus : Rat
  trust : Rat
  validator_trust : Rat
  dividends : Rat
  last_update : Nat
  validator_permit : Bool
  weights : List (Nat × Nat)
  bonds : List (Nat × Nat)
  pruning_score : Nat
  is_null : Bool
deriving DecidableEq, Repr

/-- `NeuronInfo.fix_decoded_values` from neuron_info.py.  `enc` abstracts
`ss58_encode(., SS58_FORMAT)`.  The stake dict is built by a dict
comprehension over the raw stake list; `stake` is the Python `sum` of its
values and `total_stake` a copy of `stake`. -/
def NeuronInfo.fix_decoded_values (enc : List Nat → String)
    (d : NeuronInfoDecoded) : NeuronInfo :=
  let stake_dict :=
    dictOfPairs (d.stake.map (fun p => (enc p.1, Balance.from_rao (Int.ofNat p.2))))
  { hotkey := enc d.hotkey
    coldkey := enc d.coldkey
    uid := d.uid
    netuid := d.netuid
    active := d.active
    stake := sumBalances (stake_dict.map (fun p => p.2))
    stake_dict := stake_dict
    total_stake := sumBalances (stake_dict.map (fun p => p.2))
    rank := u16_normalized_float d.rank
    emission := (d.emission : Rat) / RAOPERTAO
    incentive := u16_normalized_float d.incentive
    consensus := u16_normalized_float d.consensus
    trust := u16_normalized_float d.trust
    validator_trust := u16_normalized_float d.validator_trust
    dividends := u16_normalized_float d.dividends
    last_update := d.last_update
    validator_permit := d.validator_permit
    weights := d.weights.map (fun w => (w.1, w.2))
    bonds := d.bonds.map (fun b => (b.1, b.2))
    pruning_score := d.pruning_score
    is_null := false }

/-- `NeuronInfo.from_vec_u8` from neuron_info.py.  `decode` abstracts the
external `bt_decode.NeuronInfo.decode` (malformed buffers raise before any of
the logic modelled here), `enc` abstracts `decode_account_id`.  Note the
explicit empty-dict guard: `sum(stake_dict.values()) if stake_dict else
Balance(0)`. -/
def NeuronInfo.from_vec_u8 (decode : List Nat → NeuronInfoDecoded)
    (enc : List Nat → String) (vec_u8 : List Nat) : NeuronInfo :=
  let n := decode vec_u8
  let stake_dict := process_stake_data enc n.stake
  let total_stake :=
    if !stake_dict.isEmpty then
      sumBalances (stake_dict.map (fun p => p.2))
    else
      Balance.from_rao 0
  { hotkey := enc n.hotkey
    coldkey := enc n.coldkey
    uid := n.uid
    netuid := n.netuid
    active := n.active
    stake := total_stake
    stake_dict := stake_dict
    total_stake := total_stake
    rank := u16_normalized_float n.rank
    emission := (n.emission : Rat) / RAOPERTAO
    incentive := u16_normalized_float n.incentive
    consensus := u16_normalized_float n.consensus
    trust := u16_normalized_float n.trust
    validator_trust := u16_normalized_float n.validator_trust
    dividends := u16_normalized_float n.dividends
    last_update := n.last_update
    validator_permit := n.validator_permit
    weights := n.weights.map (fun e => (e.1, e.2))
    bonds := n.bonds.map (fun e => (e.1, e.2))
    pruning_score := n.pruning_score
    is_null := false }

/-- `NeuronInfo.get_null_neuron` from neuron_info.py: the sentinel for a
neuron that does not exist. -/
def NeuronInfo.get_null_neuron : NeuronInfo :=
  { hotkey := "000000000000000000000000000000000000000000000000"
    coldkey := "000000000000000000000000000000000000000000000000"
    uid := 0
    netuid := 0
    active := 0
    stake := Balance.from_rao 0
    stake_dict := []
    total_stake := Balance.from_rao 0
    rank := 0
    emission := 0
    incentive := 0
    consensus := 0
    trust := 0
    validator_trust := 0
    dividends := 0
    last_update := 0
    validator_permit := false
    weights := []
    bonds := []
    pruning_score := 0
    is_null := true }

/-- The submissions of an event trace: the invocations of the chain client's
unstake operation, as (target index, amount) pairs in program order. -/
def submitsOf : List MEvent → List (Nat × Balance)
  | [] => []
  | MEvent.submit i a :: rest => (i, a) :: submitsOf rest
  | MEvent.queryBalance :: rest => submitsOf rest
  | MEvent.queryStake _ :: rest => submitsOf rest
  | MEvent.queryOwner _ :: rest => submitsOf rest
  | MEvent.queryMinStake :: rest => submitsOf rest
  | MEvent.queryTxRateLimit :: rest => submitsOf rest
  | MEvent.queryBlock :: rest => submitsOf rest
  | MEvent.sleepSec _ :: rest => submitsOf rest

/-- The sleep durations (in seconds) of an event trace, in program order. -/
def sleepsOf : List MEvent → List Nat
  | [] => []
  | MEvent.sleepSec s :: rest => s :: sleepsOf rest
  | MEvent.submit _ _ :: rest => sleepsOf rest
  | MEvent.queryBalance :: rest => sleepsOf rest
  | MEvent.queryStake _ :: rest => sleepsOf rest
  | MEvent.queryOwner _ :: rest => sleepsOf rest
  | MEvent.queryMinStake :: rest => sleepsOf rest
  | MEvent.queryTxRateLimit :: rest => sleepsOf rest
  | MEvent.queryBlock :: rest => sleepsOf rest

/-- The submission list contributed by one target. -/
def optSubmit (idx : Nat) : Option Balance → List (Nat × Balance)
  | some b => [(idx, b)]
  | none => []

/-- The submissions the per-target loop performs from index `idx` on: each
target contributes its `targetSubmit` under its own index. -/
def expectedSubmits (minReq : Balance) (prompt : Bool) :
    Nat → List (TargetEnv × Option Balance) → List (Nat × Balance)
  | _, [] => []
  | idx, pa :: rest =>
      optSubmit idx (targetSubmit minReq pa.1 pa.2 prompt) ++
        expectedSubmits minReq prompt (idx + 1) rest

/-- Well-formedness of the amounts argument for reaching the per-target loop:
either no amounts were given, or the list matches the hotkey list in length
(no `ValueError`) and its amounts do not sum to zero (no zero-sum early
return). -/
def amountOK : Option (List Balance) → Nat → Bool
  | none, _ => true
  | some amts, n => amts.length == n && (amts.map Balance.rao).sum != 0

theorem submitsOf_append (a b : List MEvent) :
    submitsOf (a ++ b) = submitsOf a ++ submitsOf b := by
  induction a with
  | nil => rfl
  | cons e rest ih => cases e <;> simp [submitsOf, ih]

theorem sleepsOf_append (a b : List MEvent) :
    sleepsOf (a ++ b) = sleepsOf a ++ sleepsOf b := by
  induction a with
  | nil => rfl
  | cons e rest ih => cases e <;> simp [sleepsOf, ih]

theorem submitsOf_syncEvents (n : Nat) : submitsOf (syncEvents n) = [] := by
  unfold syncEvents
  rw [show (MEvent.queryBalance ::
      ((List.range n).map (fun i => [MEvent.queryStake i, MEvent.queryOwner i])).flatten)
    = [MEvent.queryBalance] ++
      ((List.range n).map (fun i => [MEvent.queryStake i, MEvent.queryOwner i])).flatten
    from rfl]
  rw [submitsOf_append]
  have h : ∀ l : List Nat,
      submitsOf ((l.map (fun i => [MEvent.queryStake i, MEvent.queryOwner i])).flatten)
        = [] := by
    intro l
    induction l with
    | nil => rfl
    | cons x xs ih => simp [submitsOf, ih]
  simp [submitsOf, h]

theorem submitsOf_thresholdEvents (c : Prop) [Decidable c] :
    submitsOf (if c then [MEvent.queryMinStake] else []) = [] := by
  by_cases h : c <;> simp [h, submitsOf]

theorem submitsOf_rateEvents (c : Prop) [Decidable c] (txL s : Nat) :
    submitsOf (if c then
      MEvent.queryTxRateLimit ::
        (if txL > 0 then [MEvent.sleepSec s] else [])
    else []) = [] := by
  by_cases h : c
  · by_cases h2 : txL > 0 <;> simp [h, h2, submitsOf]
  · simp [h, submitsOf]

theorem submitsOf_waitEvents (c : Prop) [Decidable c] (idx : Nat) :
    submitsOf (if c then [] else [MEvent.queryBlock, MEvent.queryStake idx]) = [] := by
  by_cases h : c <;> simp [h, submitsOf]

/-- The submissions of one loop iteration are exactly the target's
`targetSubmit` under its index. -/
theorem unstakeTarget_submits (minReq : Balance) (txL n idx : Nat)
    (t : TargetEnv) (a : Option Balance) (wI wF p : Bool) :
    submitsOf (unstakeTarget minReq txL n idx t a wI wF p).2
      = optSubmit idx (targetSubmit minReq t a p) := by
  unfold unstakeTarget targetSubmit
  by_cases h1 : (a.getD t.oldStake).bgt t.oldStake = true
  · simp [h1, submitsOf, optSubmit]
  · by_cases h2 : (p && !t.promptAnswer) = true
    · simp [h1, h2, optSubmit, submitsOf_thresholdEvents]
    · cases houtcome : t.submitOutcome <;>
        simp [h1, h2, optSubmit, submitsOf, submitsOf_append,
          submitsOf_thresholdEvents, submitsOf_rateEvents, submitsOf_waitEvents]

/-- One loop iteration increments `successful_unstakes` exactly when the
target succeeds. -/
theorem unstakeTarget_fst (minReq : Balance) (txL n idx : Nat)
    (t : TargetEnv) (a : Option Balance) (wI wF p : Bool) :
    (unstakeTarget minReq txL n idx t a wI wF p).1
      = targetSucceeds minReq t a p := by
  unfold unstakeTarget targetSucceeds targetSubmit
  by_cases h1 : (a.getD t.oldStake).bgt t.oldStake = true
  · simp [h1]
  · by_cases h2 : (p && !t.promptAnswer) = true
    · simp [h1, h2]
    · cases houtcome : t.submitOutcome <;>
        simp [h1, h2, SubmitOutcome.isSuccess]

/-- `successful_unstakes` counts exactly the targets that succeed on their
own merits: failures of other targets do not affect it. -/
theorem runTargets_fst (minReq : Balance) (txL n : Nat) (wI wF p : Bool)
    (idx : Nat) (l : List (TargetEnv × Option Balance)) :
    (runTargets minReq txL n wI wF p idx l).1
      = l.countP (fun pa => targetSucceeds minReq pa.1 pa.2 p) := by
  induction l generalizing idx with
  | nil => rfl
  | cons pa rest ih =>
      rw [runTargets]
      simp only [ih, unstakeTarget_fst, List.countP_cons]
      cases h : targetSucceeds minReq pa.1 pa.2 p <;> simp [h] <;> omega

/-- The submissions of the per-target loop are the per-target submissions in
input order: every target is processed, independently of the others. -/
theorem runTargets_submits (minReq : Balance) (txL n : Nat) (wI wF p : Bool)
    (idx : Nat) (l : List (TargetEnv × Option Balance)) :
    submitsOf (runTargets minReq txL n wI wF p idx l).2
      = expectedSubmits minReq p idx l := by
  induction l generalizing idx with
  | nil => rfl
  | cons pa rest ih =>
      rw [runTargets, expectedSubmits]
      simp only [submitsOf_append, unstakeTarget_submits, ih]

/-- Any pair in the expected submissions comes from the target at the
corresponding list position. -/
theorem expectedSubmits_mem (minReq : Balance) (p : Bool) (idx : Nat)
    (l : List (TargetEnv × Option Balance)) (i : Nat) (b : Balance)
    (h : (i, b) ∈ expectedSubmits minReq p idx l) :
    ∃ j pa, l[j]? = some pa ∧ i = idx + j ∧
      targetSubmit minReq pa.1 pa.2 p = some b := by
  induction l generalizing idx with
  | nil => simp [expectedSubmits] at h
  | cons pa rest ih =>
      rw [expectedSubmits] at h
      rcases List.mem_append.mp h with h1 | h2
      · refine ⟨0, pa, by simp, ?_, ?_⟩
        · cases hsub : targetSubmit minReq pa.1 pa.2 p <;>
            simp [optSubmit, hsub] at h1
          · omega
        · cases hsub : targetSubmit minReq pa.1 pa.2 p <;>
            simp [optSubmit, hsub] at h1
          · simp [h1.2]
      · obtain ⟨j, pb, hj, hi, hsub⟩ := ih (idx + 1) h2
        exact ⟨j + 1, pb, by simpa using hj, by omega, hsub⟩

/-- The loop events contain each target's own events as a contiguous
segment, in index order. -/
theorem runTargets_segment (minReq : Balance) (txL n : Nat) (wI wF p : Bool)
    (idx : Nat) (l : List (TargetEnv × Option Balance)) (i : Nat)
    (pa : TargetEnv × Option Balance) (h : l[i]? = some pa) :
    ∃ A B, (runTargets minReq txL n wI wF p idx l).2
      = A ++ (unstakeTarget minReq txL n (idx + i) pa.1 pa.2 wI wF p).2 ++ B := by
  induction l generalizing idx i with
  | nil => simp at h
  | cons hd rest ih =>
      cases i with
      | zero =>
          simp at h
          subst h
          exact ⟨[], (runTargets minReq txL n wI wF p (idx + 1) rest).2,
            by rw [runTargets]; simp⟩
      | succ j =>
          simp at h
          obtain ⟨A, B, hAB⟩ := ih (idx + 1) j h
          refine ⟨(unstakeTarget minReq txL n idx hd.1 hd.2 wI wF p).2 ++ A, B, ?_⟩
          rw [runTargets]
          simp only
          have heq : idx + (j + 1) = (idx + 1) + j := by omega
          rw [heq, hAB]
          simp [List.append_assoc]

/-- Once the early returns are passed (non-empty hotkey list, well-formed
non-zero amounts), `unstake_multiple_extrinsic` runs the main body. -/
theorem unstake_multiple_run (env : MultiEnv) (amounts : Option (List Balance))
    (wI wF p : Bool)
    (hne : env.targets ≠ [])
    (hok : amountOK amounts env.targets.length = true) :
    unstake_multiple_extrinsic env amounts wI wF p
      = some (runMulti env (amountOptions amounts env.targets.length) wI wF p) := by
  have hn : ¬env.targets.length = 0 := fun h0 => hne (List.length_eq_zero.mp h0)
  cases amounts with
  | none => simp [unstake_multiple_extrinsic, hn]
  | some amts =>
      simp only [amountOK, Bool.and_eq_true, beq_iff_eq, bne_iff_ne] at hok
      simp [unstake_multiple_extrinsic, hn, hok.1, hok.2]

/-- A successful iteration's events: the optional minimum-stake query, the
submission, then (for a non-last index) the rate-limit query and sleep, then
(when waiting) the post-state queries. -/
theorem unstakeTarget_success_events (minReq : Balance) (txL n idx : Nat)
    (t : TargetEnv) (a : Option Balance) (wI wF p : Bool) (b : Balance)
    (hsub : targetSubmit minReq t a p = some b)
    (hsucc : t.submitOutcome = SubmitOutcome.success) :
    (unstakeTarget minReq txL n idx t a wI wF p).2
      = (if !t.ownHotkey then [MEvent.queryMinStake] else []) ++
          MEvent.submit idx b ::
            ((if idx < n - 1 then
                MEvent.queryTxRateLimit ::
                  (if txL > 0 then [MEvent.sleepSec (txL * 12)] else [])
              else []) ++
              (if !wF && !wI then []
                else [MEvent.queryBlock, MEvent.queryStake idx])) := by
  unfold unstakeTarget
  unfold targetSubmit at hsub
  by_cases h1 : (a.getD t.oldStake).bgt t.oldStake = true
  · simp [h1] at hsub
  · by_cases h2 : (p && !t.promptAnswer) = true
    · simp [h1, h2] at hsub
    · have hsub2 : effectiveUnstake minReq t a = b := by
        simp [h1, h2] at hsub
        exact hsub
      simp [h1, h2, hsucc, hsub2]

/-- The sleeps of one loop iteration: empty unless the iteration submitted
successfully at a non-last index with a positive rate limit, in which case a
single sleep of `txL * 12` seconds. -/
theorem unstakeTarget_sleeps (minReq : Balance) (txL n idx : Nat)
    (t : TargetEnv) (a : Option Balance) (wI wF p : Bool) :
    sleepsOf (unstakeTarget minReq txL n idx t a wI wF p).2
      = (if (targetSubmit minReq t a p).isSome ∧
            t.submitOutcome = SubmitOutcome.success ∧
            idx < n - 1 ∧ 0 < txL then
          [txL * 12]
        else []) := by
  unfold unstakeTarget
  by_cases h1 : (a.getD t.oldStake).bgt t.oldStake = true
  · simp [h1, sleepsOf, targetSubmit]
  · by_cases h2 : (p && !t.promptAnswer) = true
    · by_cases hown : t.ownHotkey = true <;>
        simp [h1, h2, hown, sleepsOf, targetSubmit]
    · cases houtcome : t.submitOutcome <;>
        by_cases hown : t.ownHotkey = true <;>
        by_cases hidx : idx < n - 1 <;>
        by_cases htx : txL > 0 <;>
        cases wI <;> cases wF <;>
        simp [h1, h2, hown, hidx, htx, houtcome, sleepsOf, sleepsOf_append,
          targetSubmit]

theorem countP_ne_zero_any {α : Type} (l : List α) (q : α → Bool) :
    (decide (l.countP q ≠ 0)) = l.any q := by
  rw [Bool.eq_iff_iff, decide_eq_true_iff, List.any_eq_true]
  rw [show (List.countP q l ≠ 0) ↔ (0 < List.countP q l) by omega]
  exact List.countP_pos_iff

/-- The boolean returned from the main body is: some target succeeded. -/
theorem runMulti_success (env : MultiEnv) (amountOpts : List (Option Balance))
    (wI wF p : Bool) :
    (runMulti env amountOpts wI wF p).success
      = (env.targets.zip amountOpts).any
          (fun pa => targetSucceeds env.minReqStake pa.1 pa.2 p) := by
  unfold runMulti
  simp only [runTargets_fst]
  exact countP_ne_zero_any _ _

/-- The submissions of the main body are exactly the per-target submissions
in input order. -/
theorem runMulti_submits (env : MultiEnv) (amountOpts : List (Option Balance))
    (wI wF p : Bool) :
    submitsOf (runMulti env amountOpts wI wF p).events
      = expectedSubmits env.minReqStake p 0 (env.targets.zip amountOpts) := by
  unfold runMulti
  simp only [submitsOf_append, submitsOf_syncEvents, runTargets_submits]
  by_cases hc : (runTargets env.minReqStake env.txRateLimit env.targets.length
      wI wF p 0 (env.targets.zip amountOpts)).1 ≠ 0 <;>
    simp [hc, submitsOf]

/-- C3: a single-target unstake whose requested amount strictly exceeds the
current stake for the (coldkey, hotkey) pair returns false and never invokes
the chain client's unstake operation. -/
theorem unstake_insufficient_stake_rejected (env : UnstakeEnv) (amt : Balance)
    (wI wF p : Bool) (h : env.oldStake.rao < amt.rao) :
    unstake_extrinsic env (some amt) wI wF p = (false, []) := by
  unfold unstake_extrinsic
  simp [Balance.bgt, h]

/-- Witness for C3: stake 100 rao, request 101 rao: rejected, no submission. -/
theorem unstake_insufficient_stake_rejected_witness :
    unstake_extrinsic ⟨⟨100⟩, true, ⟨10⟩, true, SubmitOutcome.success⟩
      (some ⟨101⟩) true false false = (false, []) :=
  unstake_insufficient_stake_rejected _ _ _ _ _ (by decide)

/-- C4: a single-target unstake with no amount (unstake everything) passes
exactly the full current stake `S` to the chain client, unless the user
declines the confirmation prompt (in which case nothing is submitted). -/
theorem unstake_all_submits_entire_stake (env : UnstakeEnv) (wI wF p : Bool) :
    (unstake_extrinsic env none wI wF p).2
      = if p && !env.promptAnswer then [] else [env.oldStake] := by
  unfold unstake_extrinsic
  have h1 : (Option.getD none env.oldStake).bgt env.oldStake = false := by
    simp [Balance.bgt]
  have h2 : check_threshold_amount env.minReqStake
      (env.oldStake.sub (Option.getD none env.oldStake)) = true := by
    simp [check_threshold_amount, Balance.bgt, Balance.sub, Balance.from_rao]
  by_cases h3 : (p && !env.promptAnswer) = true
  · simp [h1, h2, h3]
  · cases env.submitOutcome <;> simp [h1, h2, h3, Balance.bgt]

/-- C8: with the prompt enabled and the user answering no, both the
single-target unstake flow and the transfer flow return false and issue zero
chain submissions. -/
theorem prompt_decline_returns_false_no_submission
    (uenv : UnstakeEnv) (amt : Option Balance) (wI wF : Bool)
    (tenv : TransferEnv) (amount : Balance) (wI2 wF2 kA : Bool)
    (hu : uenv.promptAnswer = false) (ht : tenv.promptAnswer = false) :
    unstake_extrinsic uenv amt wI wF true = (false, []) ∧
    transfer_extrinsic tenv amount wI2 wF2 kA true = (false, []) := by
  constructor
  · unfold unstake_extrinsic
    by_cases h1 : ((amt.getD uenv.oldStake).bgt uenv.oldStake) = true <;>
      simp [h1, hu]
  · unfold transfer_extrinsic
    by_cases h1 : tenv.destValid = true
    · simp only [h1, ht]
      split
    -- the early insufficient-balance return and the declined prompt both
    -- yield (false, [])
      · simp
      · split <;> simp
    · simp [h1]

/-- Witness for C8: a declined prompt on an otherwise valid unstake and an
otherwise valid transfer returns false with no submission in both flows. -/
theorem prompt_decline_returns_false_no_submission_witness :
    unstake_extrinsic ⟨⟨100⟩, true, ⟨10⟩, false, SubmitOutcome.success⟩
        (some ⟨40⟩) true false true = (false, []) ∧
    transfer_extrinsic ⟨true, ⟨1000⟩, ⟨1⟩, ⟨10⟩, false, true⟩ ⟨40⟩
        true false true true = (false, []) :=
  prompt_decline_returns_false_no_submission _ _ _ _ _ _ _ _ _ rfl rfl

/-- C2: given a valid destination and no declined prompt, the transfer
submits if and only if the balance covers amount + fee + (existential
deposit when keep_alive, else zero); below the threshold it returns false
with no submission; at or above it, it submits the amount and returns the
chain client's success flag. -/
theorem transfer_balance_gate (env : TransferEnv) (amount : Balance)
    (wI wF kA p : Bool)
    (hdest : env.destValid = true)
    (hprompt : p = true → env.promptAnswer = true) :
    (((transfer_extrinsic env amount wI wF kA p).2 ≠ []) ↔
        ((amount.add env.fee).add
            (if kA then env.existentialDeposit else Balance.from_rao 0)).rao
          ≤ env.accountBalance.rao) ∧
    (env.accountBalance.rao <
        ((amount.add env.fee).add
            (if kA then env.existentialDeposit else Balance.from_rao 0)).rao →
      transfer_extrinsic env amount wI wF kA p = (false, [])) ∧
    (((amount.add env.fee).add
          (if kA then env.existentialDeposit else Balance.from_rao 0)).rao
        ≤ env.accountBalance.rao →
      transfer_extrinsic env amount wI wF kA p = (env.transferSuccess, [amount])) := by
  have hp : (p && !env.promptAnswer) = false := by
    cases p with
    | false => rfl
    | true => simp [hprompt rfl]
  unfold transfer_extrinsic
  cases kA with
  | false =>
      by_cases h2 : env.accountBalance.rao <
          ((amount.add env.fee).add (Balance.from_rao 0)).rao <;>
        simp [hdest, hp, h2] <;> omega
  | true =>
      by_cases h2 : env.accountBalance.rao <
          ((amount.add env.fee).add env.existentialDeposit).rao <;>
        simp [hdest, hp, h2] <;> omega

/-- Witness for C2: with fee 10 and amount 40 (keep_alive false), balance 50
submits and returns true; balance 49 (one rao short) returns false without
submitting. -/
theorem transfer_balance_gate_witness :
    transfer_extrinsic ⟨true, ⟨50⟩, ⟨7⟩, ⟨10⟩, true, true⟩ ⟨40⟩
        true false false false = (true, [⟨40⟩]) ∧
    transfer_extrinsic ⟨true, ⟨49⟩, ⟨7⟩, ⟨10⟩, true, true⟩ ⟨40⟩
        true false false false = (false, []) :=
  ⟨(transfer_balance_gate ⟨true, ⟨50⟩, ⟨7⟩, ⟨10⟩, true, true⟩ ⟨40⟩
      true false false false rfl (by decide)).2.2 (by decide),
   (transfer_balance_gate ⟨true, ⟨49⟩, ⟨7⟩, ⟨10⟩, true, true⟩ ⟨40⟩
      true false false false rfl (by decide)).2.1 (by decide)⟩

/-- C10: a multi-target unstake with an empty hotkey list, or with an
explicit amounts list summing to zero, returns true with an empty event
trace: no chain query, no sleep and no submission occurs. -/
theorem unstake_multiple_trivial_success_no_interaction
    (env : MultiEnv) (amounts : Option (List Balance)) (wI wF p : Bool)
    (amts : List Balance)
    (hcase : env.targets = [] ∨
      (amounts = some amts ∧ amts.length = env.targets.length ∧
        (amts.map Balance.rao).sum = 0)) :
    unstake_multiple_extrinsic env amounts wI wF p
      = some ⟨true, []⟩ := by
  unfold unstake_multiple_extrinsic
  rcases hcase with h | ⟨ha, hlen, hsum⟩
  · simp [h]
  · subst ha
    by_cases hn : env.targets.length = 0
    · simp [hn]
    · simp [hn, hlen, hsum]

/-- Witness for C10: two targets with explicit zero amounts: the call returns
true and the trace is empty. -/
theorem unstake_multiple_trivial_success_no_interaction_witness :
    unstake_multiple_extrinsic
        ⟨[⟨⟨10⟩, true, true, SubmitOutcome.success⟩,
          ⟨⟨20⟩, false, true, SubmitOutcome.success⟩], ⟨5⟩, 3⟩
        (some [⟨0⟩, ⟨0⟩]) true false false = some ⟨true, []⟩ :=
  unstake_multiple_trivial_success_no_interaction _ _ _ _ _ [⟨0⟩, ⟨0⟩]
    (Or.inr ⟨rfl, by decide, by decide⟩)

/-- C6: decoding a neuron whose stake list is empty yields a zero stake and
an empty stake dict, in both decoding paths that build a NeuronInfo from a
chain buffer. -/
theorem decode_empty_stake_list
    (enc : List Nat → String) (d : NeuronInfoDecoded)
    (decode : List Nat → NeuronInfoDecoded) (v : List Nat)
    (hd : d.stake = []) (hv : (decode v).stake = []) :
    ((NeuronInfo.fix_decoded_values enc d).stake = Balance.from_rao 0 ∧
      (NeuronInfo.fix_decoded_values enc d).stake_dict = []) ∧
    ((NeuronInfo.from_vec_u8 decode enc v).stake = Balance.from_rao 0 ∧
      (NeuronInfo.from_vec_u8 decode enc v).stake_dict = []) := by
  refine ⟨⟨?_, ?_⟩, ?_, ?_⟩ <;>
    simp [NeuronInfo.fix_decoded_values, NeuronInfo.from_vec_u8, hd, hv,
      process_stake_data, dictOfPairs, sumBalances, Balance.from_rao]

/-- Witness for C6: a concrete decoded payload with an empty stake list. -/
theorem decode_empty_stake_list_witness :
    ((NeuronInfo.fix_decoded_values (fun _ => "addr")
        ⟨[1], [2], 3, 4, 1, [], [(1, 100)], [], 5, 6, 7, 8, 9, 10, 11, 12,
          true, 13⟩).stake = Balance.from_rao 0 ∧
      (NeuronInfo.fix_decoded_values (fun _ => "addr")
        ⟨[1], [2], 3, 4, 1, [], [(1, 100)], [], 5, 6, 7, 8, 9, 10, 11, 12,
          true, 13⟩).stake_dict = []) ∧
    ((NeuronInfo.from_vec_u8
        (fun _ => ⟨[1], [2], 3, 4, 1, [], [(1, 100)], [], 5, 6, 7, 8, 9, 10,
          11, 12, true, 13⟩) (fun _ => "addr") [0]).stake = Balance.from_rao 0 ∧
      (NeuronInfo.from_vec_u8
        (fun _ => ⟨[1], [2], 3, 4, 1, [], [(1, 100)], [], 5, 6, 7, 8, 9, 10,
          11, 12, true, 13⟩) (fun _ => "addr") [0]).stake_dict = []) :=
  decode_empty_stake_list (fun _ => "addr")
    ⟨[1], [2], 3, 4, 1, [], [(1, 100)], [], 5, 6, 7, 8, 9, 10, 11, 12,
      true, 13⟩
    (fun _ => ⟨[1], [2], 3, 4, 1, [], [(1, 100)], [], 5, 6, 7, 8, 9, 10, 11,
      12, true, 13⟩) [0] rfl rfl

/-- C7: every NeuronInfo built by fix_decoded_values, from_vec_u8 or
get_null_neuron satisfies total_stake = sum of the stake dict's values, and
stake = total_stake. -/
theorem neuron_info_total_stake_invariant
    (enc : List Nat → String) (d : NeuronInfoDecoded)
    (decode : List Nat → NeuronInfoDecoded) (v : List Nat) :
    ((NeuronInfo.fix_decoded_values enc d).total_stake
        = sumBalances ((NeuronInfo.fix_decoded_values enc d).stake_dict.map
            (fun q => q.2)) ∧
      (NeuronInfo.fix_decoded_values enc d).stake
        = (NeuronInfo.fix_decoded_values enc d).total_stake) ∧
    ((NeuronInfo.from_vec_u8 decode enc v).total_stake
        = sumBalances ((NeuronInfo.from_vec_u8 decode enc v).stake_dict.map
            (fun q => q.2)) ∧
      (NeuronInfo.from_vec_u8 decode enc v).stake
        = (NeuronInfo.from_vec_u8 decode enc v).total_stake) ∧
    (NeuronInfo.get_null_neuron.total_stake
        = sumBalances (NeuronInfo.get_null_neuron.stake_dict.map
            (fun q => q.2)) ∧
      NeuronInfo.get_null_neuron.stake = NeuronInfo.get_null_neuron.total_stake) := by
  refine ⟨⟨rfl, rfl⟩, ⟨?_, rfl⟩, rfl, rfl⟩
  by_cases hemp : (process_stake_data enc (decode v).stake).isEmpty = true
  · simp [NeuronInfo.from_vec_u8, hemp, List.isEmpty_iff.mp hemp, sumBalances,
      Balance.from_rao]
  · simp [NeuronInfo.from_vec_u8, hemp]

/-- A remainder that is non-zero and below the minimum fails the threshold
check. -/
theorem check_threshold_amount_dust (minReq bal : Balance)
    (hpos : 0 < bal.rao) (hlt : bal.rao < minReq.rao) :
    check_threshold_amount minReq bal = false := by
  simp [check_threshold_amount, Balance.bgt, Balance.from_rao, hpos, hlt]

/-- C1: an unstake call (single or multi-target) on a hotkey not owned by
the caller's coldkey whose requested amount would leave a remainder strictly
between zero and the chain minimum is upgraded to a full withdrawal: the
amount passed to the chain client is the entire current stake.  For the
single flow the submission list is exactly the full stake (unless the prompt
is declined); for the multi flow any submission recorded for such a target
carries the full stake of that target. -/
theorem unstake_nomination_forced_full_withdrawal
    (env : UnstakeEnv) (amt : Balance) (wI wF p : Bool)
    (menv : MultiEnv) (amounts : Option (List Balance)) (wI2 wF2 p2 : Bool)
    (r : MultiResult) (i : Nat) (t : TargetEnv) (amtB b : Balance)
    (hown : env.ownHotkey = false)
    (hpos : 0 < (env.oldStake.sub amt).rao)
    (hlt : (env.oldStake.sub amt).rao < env.minReqStake.rao)
    (hres : unstake_multiple_extrinsic menv amounts wI2 wF2 p2 = some r)
    (hget : (menv.targets.zip
        (amountOptions amounts menv.targets.length))[i]? = some (t, some amtB))
    (hown2 : t.ownHotkey = false)
    (hpos2 : 0 < (t.oldStake.sub amtB).rao)
    (hlt2 : (t.oldStake.sub amtB).rao < menv.minReqStake.rao)
    (hmem : (i, b) ∈ submitsOf r.events) :
    (unstake_extrinsic env (some amt) wI wF p).2
      = (if p && !env.promptAnswer then [] else [env.oldStake]) ∧
    b = t.oldStake := by
  constructor
  · unfold unstake_extrinsic
    have h1 : amt.bgt env.oldStake = false := by
      simp only [Balance.sub] at hpos
      simp only [Balance.bgt, decide_eq_false_iff_not, not_lt]
      omega
    have hth : check_threshold_amount env.minReqStake
        (env.oldStake.sub amt) = false :=
      check_threshold_amount_dust _ _ hpos hlt
    by_cases h3 : (p && !env.promptAnswer) = true
    · simp [h1, hth, hown, h3]
    · cases env.submitOutcome <;> simp [h1, hth, hown, h3]
  · by_cases hn : menv.targets.length = 0
    · unfold unstake_multiple_extrinsic at hres
      rw [if_pos hn] at hres
      obtain rfl := Option.some.inj hres
      simp [submitsOf] at hmem
    · unfold unstake_multiple_extrinsic at hres
      rw [if_neg hn] at hres
      have hfinish : ∀ opts,
          r = runMulti menv opts wI2 wF2 p2 →
          opts = amountOptions amounts menv.targets.length →
          b = t.oldStake := by
        intro opts hr hopts
        subst hr
        subst hopts
        rw [runMulti_submits] at hmem
        obtain ⟨j, pa, hj, hij, hsubm⟩ := expectedSubmits_mem _ _ _ _ _ _ hmem
        have hji : i = j := by omega
        subst hji
        have hpa : pa = (t, some amtB) := by
          have h := hj.symm.trans hget
          exact Option.some.inj h
        subst hpa
        have h1 : ((some amtB).getD t.oldStake).bgt t.oldStake = false := by
          simp only [Balance.sub] at hpos2
          simp only [Option.getD_some, Balance.bgt, decide_eq_false_iff_not,
            not_lt]
          omega
        have hth2 : check_threshold_amount menv.minReqStake
            (t.oldStake.sub amtB) = false :=
          check_threshold_amount_dust _ _ hpos2 hlt2
        by_cases h3 : (p2 && !t.promptAnswer) = true
        · simp [targetSubmit, h1, h3] at hsubm
        · simp [targetSubmit, effectiveUnstake, h1, h3, hth2, hown2] at hsubm
          exact hsubm.2.symm
      cases amounts with
      | none =>
          obtain rfl := Option.some.inj hres
          exact hfinish _ rfl rfl
      | some amts =>
          by_cases hlen : amts.length = menv.targets.length
          · by_cases hsum : (amts.map Balance.rao).sum = 0
            · simp [hlen, hsum] at hres
              obtain rfl := hres
              simp [submitsOf] at hmem
            · simp [hlen, hsum] at hres
              obtain rfl := hres
              exact hfinish _ rfl rfl
          · simp [hlen] at hres

/-- Witness for C1: stake 100 rao, request 40, minimum 80 (remainder 60),
hotkey not owned: both flows submit the full 100 rao instead of 40. -/
theorem unstake_nomination_forced_full_withdrawal_witness :
    (unstake_extrinsic ⟨⟨100⟩, false, ⟨80⟩, true, SubmitOutcome.success⟩
        (some ⟨40⟩) true false false).2
      = (if false && !(true : Bool) then [] else [(⟨100⟩ : Balance)]) ∧
    (⟨100⟩ : Balance)
      = (⟨⟨100⟩, false, true, SubmitOutcome.success⟩ : TargetEnv).oldStake :=
  unstake_nomination_forced_full_withdrawal
    ⟨⟨100⟩, false, ⟨80⟩, true, SubmitOutcome.success⟩ ⟨40⟩ true false false
    ⟨[⟨⟨100⟩, false, true, SubmitOutcome.success⟩], ⟨80⟩, 0⟩
    (some [⟨40⟩]) false false false
    ⟨true, [MEvent.queryBalance, MEvent.queryStake 0, MEvent.queryOwner 0,
      MEvent.queryMinStake, MEvent.submit 0 ⟨100⟩, MEvent.queryBalance]⟩
    0 ⟨⟨100⟩, false, true, SubmitOutcome.success⟩ ⟨40⟩ ⟨100⟩
    rfl (by decide) (by decide) (by decide) (by decide) rfl (by decide)
    (by decide) (by decide)

/-- Counterexample to C5 as stated: a multi-target call whose explicit
amounts sum to zero returns true before processing any target, with zero
submissions — so it returns true although no target succeeded (the claim
demands false then).  The same happens for an empty hotkey list. -/
theorem unstake_multiple_vacuous_true_counterexample :
    unstake_multiple_extrinsic
        ⟨[⟨⟨10⟩, true, true, SubmitOutcome.failure⟩], ⟨5⟩, 0⟩
        (some [⟨0⟩]) true false false = some ⟨true, []⟩ ∧
    (([⟨⟨10⟩, true, true, SubmitOutcome.failure⟩] : List TargetEnv).zip
        (amountOptions (some [⟨0⟩]) 1)).any
      (fun pa => targetSucceeds ⟨5⟩ pa.1 pa.2 false) = false ∧
    unstake_multiple_extrinsic ⟨[], ⟨5⟩, 0⟩ none true false false
      = some ⟨true, []⟩ := by
  refine ⟨by decide, by decide, by decide⟩

/-- C5 (amended): once the per-target loop is reached (non-empty hotkey
list; explicit amounts, when given, matching in length and not summing to
zero), each target is processed independently — the submissions are exactly
the per-target submissions in input order, a failing target merely
contributing nothing — and the call returns true iff at least one target
succeeded. -/
theorem unstake_multiple_batch_isolation
    (env : MultiEnv) (amounts : Option (List Balance)) (wI wF p : Bool)
    (r : MultiResult)
    (hne : env.targets ≠ [])
    (hok : amountOK amounts env.targets.length = true)
    (hres : unstake_multiple_extrinsic env amounts wI wF p = some r) :
    r.success = (env.targets.zip
        (amountOptions amounts env.targets.length)).any
        (fun pa => targetSucceeds env.minReqStake pa.1 pa.2 p) ∧
    submitsOf r.events
      = expectedSubmits env.minReqStake p 0
          (env.targets.zip (amountOptions amounts env.targets.length)) := by
  rw [unstake_multiple_run env amounts wI wF p hne hok] at hres
  obtain rfl := Option.some.inj hres
  exact ⟨runMulti_success _ _ _ _ _, runMulti_submits _ _ _ _ _⟩

/-- Witness for C5: two targets, the first failing validation (requested 20
of stake 10) and the second succeeding: the call returns true and only the
second target's submission is issued. -/
theorem unstake_multiple_batch_isolation_witness :
    (true : Bool)
      = (([⟨⟨10⟩, true, true, SubmitOutcome.success⟩,
            ⟨⟨100⟩, true, true, SubmitOutcome.success⟩] : List TargetEnv).zip
          (amountOptions (some [⟨20⟩, ⟨30⟩]) 2)).any
          (fun pa => targetSucceeds ⟨5⟩ pa.1 pa.2 false) ∧
    submitsOf [MEvent.queryBalance, MEvent.queryStake 0, MEvent.queryOwner 0,
        MEvent.queryStake 1, MEvent.queryOwner 1, MEvent.submit 1 ⟨30⟩,
        MEvent.queryBalance]
      = expectedSubmits ⟨5⟩ false 0
          (([⟨⟨10⟩, true, true, SubmitOutcome.success⟩,
            ⟨⟨100⟩, true, true, SubmitOutcome.success⟩] : List TargetEnv).zip
          (amountOptions (some [⟨20⟩, ⟨30⟩]) 2)) :=
  unstake_multiple_batch_isolation
    ⟨[⟨⟨10⟩, true, true, SubmitOutcome.success⟩,
      ⟨⟨100⟩, true, true, SubmitOutcome.success⟩], ⟨5⟩, 0⟩
    (some [⟨20⟩, ⟨30⟩]) false false false
    ⟨true, [MEvent.queryBalance, MEvent.queryStake 0, MEvent.queryOwner 0,
      MEvent.queryStake 1, MEvent.queryOwner 1, MEvent.submit 1 ⟨30⟩,
      MEvent.queryBalance]⟩
    (by decide) (by decide) (by decide)

/-- C9: in the multi-target flow, after a successful submission for any
target other than the last in the input list, with a positive transaction
rate limit of L blocks, the orchestrator queries the rate limit and then
sleeps exactly L * 12 seconds (12 seconds per block) immediately after that
submission, before any later event; after the last target's submission, or
with a zero rate limit, the iteration sleeps not at all. -/
theorem unstake_multiple_rate_limit_pause
    (env : MultiEnv) (amounts : Option (List Balance)) (wI wF p : Bool)
    (r : MultiResult) (i : Nat) (t : TargetEnv) (a : Option Balance)
    (b : Balance)
    (hne : env.targets ≠ [])
    (hok : amountOK amounts env.targets.length = true)
    (hres : unstake_multiple_extrinsic env amounts wI wF p = some r)
    (hget : (env.targets.zip
        (amountOptions amounts env.targets.length))[i]? = some (t, a))
    (hsub : targetSubmit env.minReqStake t a p = some b)
    (hsucc : t.submitOutcome = SubmitOutcome.success) :
    (i + 1 < env.targets.length → 0 < env.txRateLimit →
      List.IsInfix
        [MEvent.submit i b, MEvent.queryTxRateLimit,
          MEvent.sleepSec (env.txRateLimit * 12)] r.events) ∧
    (i + 1 = env.targets.length ∨ env.txRateLimit = 0 →
      sleepsOf (unstakeTarget env.minReqStake env.txRateLimit
        env.targets.length i t a wI wF p).2 = []) := by
  rw [unstake_multiple_run env amounts wI wF p hne hok] at hres
  obtain rfl := Option.some.inj hres
  constructor
  · intro hlast hlim
    obtain ⟨A, B, hAB⟩ := runTargets_segment env.minReqStake env.txRateLimit
      env.targets.length wI wF p 0
      (env.targets.zip (amountOptions amounts env.targets.length)) i (t, a) hget
    simp only [Nat.zero_add] at hAB
    have hseg := unstakeTarget_success_events env.minReqStake env.txRateLimit
      env.targets.length i t a wI wF p b hsub hsucc
    have hidx : i < env.targets.length - 1 := by omega
    rw [if_pos hidx, if_pos hlim] at hseg
    have h1 : List.IsInfix
        [MEvent.submit i b, MEvent.queryTxRateLimit,
          MEvent.sleepSec (env.txRateLimit * 12)]
        (unstakeTarget env.minReqStake env.txRateLimit env.targets.length
          i t a wI wF p).2 := by
      rw [hseg]
      refine ⟨(if !t.ownHotkey then [MEvent.queryMinStake] else []),
        (if !wF && !wI then []
          else [MEvent.queryBlock, MEvent.queryStake i]), ?_⟩
      simp
    have h2 : List.IsInfix
        (unstakeTarget env.minReqStake env.txRateLimit env.targets.length
          i t a wI wF p).2
        (runTargets env.minReqStake env.txRateLimit env.targets.length
          wI wF p 0
          (env.targets.zip (amountOptions amounts env.targets.length))).2 :=
      ⟨A, B, hAB.symm⟩
    have h3 : List.IsInfix
        (runTargets env.minReqStake env.txRateLimit env.targets.length
          wI wF p 0
          (env.targets.zip (amountOptions amounts env.targets.length))).2
        (runMulti env (amountOptions amounts env.targets.length) wI wF p).events := by
      unfold runMulti
      exact List.infix_append _ _ _
    exact (h1.trans h2).trans h3
  · intro hcase
    rw [unstakeTarget_sleeps]
    rcases hcase with hl | hz
    · rw [if_neg]
      rintro ⟨-, -, hidx, -⟩
      omega
    · rw [if_neg]
      rintro ⟨-, -, -, hlim⟩
      omega

/-- Witness for C9: two targets both succeeding with a rate limit of 3
blocks: a 36-second sleep occurs in the trace (after the first target's
submission), and the last target's iteration contains no sleep. -/
theorem unstake_multiple_rate_limit_pause_witness :
    MEvent.sleepSec 36 ∈
      ([MEvent.queryBalance, MEvent.queryStake 0, MEvent.queryOwner 0,
        MEvent.queryStake 1, MEvent.queryOwner 1, MEvent.submit 0 ⟨50⟩,
        MEvent.queryTxRateLimit, MEvent.sleepSec 36, MEvent.submit 1 ⟨60⟩,
        MEvent.queryBalance] : List MEvent) ∧
    sleepsOf (unstakeTarget ⟨5⟩ 3 2 1
      ⟨⟨60⟩, true, true, SubmitOutcome.success⟩ none false false false).2
      = [] := by
  constructor
  · exact ((unstake_multiple_rate_limit_pause
      ⟨[⟨⟨50⟩, true, true, SubmitOutcome.success⟩,
        ⟨⟨60⟩, true, true, SubmitOutcome.success⟩], ⟨5⟩, 3⟩
      none false false false
      ⟨true, [MEvent.queryBalance, MEvent.queryStake 0, MEvent.queryOwner 0,
        MEvent.queryStake 1, MEvent.queryOwner 1, MEvent.submit 0 ⟨50⟩,
        MEvent.queryTxRateLimit, MEvent.sleepSec 36, MEvent.submit 1 ⟨60⟩,
        MEvent.queryBalance]⟩
      0 ⟨⟨50⟩, true, true, SubmitOutcome.success⟩ none ⟨50⟩
      (by decide) (by decide) (by decide) (by decide) (by decide) rfl).1
      (by decide) (by decide)).subset (by decide)
  · exact (unstake_multiple_rate_limit_pause
      ⟨[⟨⟨50⟩, true, true, SubmitOutcome.success⟩,
        ⟨⟨60⟩, true, true, SubmitOutcome.success⟩], ⟨5⟩, 3⟩
      none false false false
      ⟨true, [MEvent.queryBalance, MEvent.queryStake 0, MEvent.queryOwner 0,
        MEvent.queryStake 1, MEvent.queryOwner 1, MEvent.submit 0 ⟨50⟩,
        MEvent.queryTxRateLimit, MEvent.sleepSec 36, MEvent.submit 1 ⟨60⟩,
        MEvent.queryBalance]⟩
      1 ⟨⟨60⟩, true, true, SubmitOutcome.success⟩ none ⟨60⟩
      (by decide) (by decide) (by decide) (by decide) (by decide) rfl).2
      (Or.inl (by decide))
